import Mathlib

/-!
Verification of the inliner-js client library (src/index.ts).

The development shallowly embeds the pure core of the library: the slug
deriver `slugify`, the base64 decoding used for inline data-URIs, the
polling state machine `pollImage`, the edit-source routing of `editImage`,
the smart-slug fallback of `generateImage`, and the error-message formats
produced by the transport layer and the workflow.

HTTP traffic is abstracted by oracles (`PollEnv`, `GenEnv`): each field
records what the remote server answers on the n-th request, and the
embedded functions consume those answers exactly as the TypeScript code
consumes `fetch` responses.  Host-platform primitives (`atob`, the WHATWG
`URL` parser for http/https URLs, `JSON.parse` extraction of a `message`
field) are modelled explicitly and documented at their definitions.
JavaScript `throw new Error(msg)` is modelled as `Except.error ⟨msg⟩` with
`JsError` carrying only the message string, exactly like the source, and
`String.toLowerCase` is modelled by ASCII lowering (`Char.toLower`), which
agrees with the source composed with the subsequent character-class
replacement on all ASCII inputs.  Unicode lowercasing can change a string's
length (U+0130 lowercases to two code units) or map non-ASCII characters
into the slug alphabet (U+212A to `k`), so slug-shape statements that must
not depend on the ASCII simplification are quantified over the already
lowercased character list: `slugify` factors as `slugCore` after
lowercasing, every lowercasing feeds `slugCore` some list, and the second
and later applications of `slugify` act on `[a-z0-9-]` strings, on which
ASCII and Unicode lowercasing agree.
-/

namespace Inliner

/-- Character class `[a-z0-9]` of the slugify regexes, by code point. -/
def isAlnumLower (c : Char) : Bool :=
  (97 ≤ c.toNat && c.toNat ≤ 122) || (48 ≤ c.toNat && c.toNat ≤ 57)

/-- Character class `[a-z0-9-]` of `slugify`'s first regex (src/index.ts:299). -/
def isSlugChar (c : Char) : Bool :=
  isAlnumLower c || c = '-'

/-- State machine for `.replace(/[^a-z0-9-]+/g, '-')` (src/index.ts:299): the
flag records whether we are inside a run of characters outside `[a-z0-9-]`,
which is emitted as a single hyphen. -/
def collapseBadAux : Bool → List Char → List Char
  | _, [] => []
  | inBad, c :: cs =>
    if isSlugChar c then c :: collapseBadAux false cs
    else if inBad then collapseBadAux true cs
    else '-' :: collapseBadAux true cs

/-- `.replace(/[^a-z0-9-]+/g, '-')` on a character list. -/
def collapseBad (l : List Char) : List Char := collapseBadAux false l

/-- State machine for the hyphen-run regex replace (src/index.ts:300): the flag
records whether we are inside a run of hyphens, which is emitted once. -/
def collapseDashesAux : Bool → List Char → List Char
  | _, [] => []
  | inRun, c :: cs =>
    if c = '-' then
      if inRun then collapseDashesAux true cs
      else '-' :: collapseDashesAux true cs
    else c :: collapseDashesAux false cs

/-- the hyphen-run regex replace on a character list. -/
def collapseDashes (l : List Char) : List Char := collapseDashesAux false l

/-- Drop one leading hyphen, the `^-` half of `.replace(/^-|-$/g, '')`
(src/index.ts:301). -/
def dropLeadDash : List Char → List Char
  | '-' :: t => t
  | l => l

/-- Drop one trailing hyphen, the `-$` half of `.replace(/^-|-$/g, '')`
(src/index.ts:301). -/
def stripTrailDash (l : List Char) : List Char :=
  if l.getLast? = some '-' then l.dropLast else l

/-- `.replace(/^-|-$/g, '')`: the global regex removes one leading and one
trailing hyphen (on the single character "-" the two matches overlap and only
the first fires, which the composition reproduces). -/
def stripEnds (l : List Char) : List Char := stripTrailDash (dropLeadDash l)

/-- The slugify pipeline of src/index.ts:296-303 on a character list:
lowercase, collapse runs outside `[a-z0-9-]`, collapse hyphen runs, strip one
leading/trailing hyphen, then `.slice(0, 100)`. -/
def slugifyL (l : List Char) : List Char :=
  (stripEnds (collapseDashes (collapseBad (l.map Char.toLower)))).take 100

/-- `InlinerClient.slugify` (src/index.ts:296-303). -/
def slugify (s : String) : String := ⟨slugifyL s.data⟩

/-- The lowercase-independent tail of the slugify pipeline
(src/index.ts:299-302): collapse runs outside `[a-z0-9-]`, collapse hyphen
runs, strip one leading and one trailing hyphen, then `.slice(0, 100)`.
`slugify` is `slugCore` composed with lowercasing, so quantifying over the
lowercased list makes a statement independent of the host's Unicode
`toLowerCase` (which may change the length of the text). -/
def slugCore (L : List Char) : List Char :=
  (stripEnds (collapseDashes (collapseBad L))).take 100

/-- Adjacent-hyphen freedom: no two consecutive characters are both `'-'`.
Used to state the slug shape `^[a-z0-9]+(-[a-z0-9]+)*$`. -/
def noDD : List Char → Bool
  | a :: b :: t => !(a = '-' && b = '-') && noDD (b :: t)
  | _ => true

/-- The regex `^[a-z0-9]+(-[a-z0-9]+)*$` of the spec, as a predicate: a
nonempty word over `[a-z0-9-]` with no adjacent hyphens and no leading or
trailing hyphen. -/
def matchesSlugRegex (l : List Char) : Prop :=
  l ≠ [] ∧ (∀ c ∈ l, isSlugChar c = true) ∧ noDD l = true ∧
    l.head? ≠ some '-' ∧ l.getLast? ≠ some '-'

instance (l : List Char) : Decidable (matchesSlugRegex l) := by
  unfold matchesSlugRegex; infer_instance

/-- The slug pipeline exactly as claim C7 words it: lowercase, collapse every
run of characters outside `[a-z0-9-]` into a single hyphen, strip leading and
trailing hyphens, truncate to 100 characters.  (Note: no hyphen-run
collapsing step.) -/
def specSlugifyC7 (s : String) : String :=
  ⟨((((s.data.map Char.toLower) |> collapseBad).dropWhile (· = '-')).reverse.dropWhile
      (· = '-')).reverse.take 100⟩

/-- State machine collapsing every run of characters outside `[a-z0-9]`
(hyphens included in the runs) into a single hyphen: the amended wording of
claim C7. -/
def collapseNonAlnumAux : Bool → List Char → List Char
  | _, [] => []
  | inRun, c :: cs =>
    if isAlnumLower c then c :: collapseNonAlnumAux false cs
    else if inRun then collapseNonAlnumAux true cs
    else '-' :: collapseNonAlnumAux true cs

/-- Runs outside `[a-z0-9]` collapse to one hyphen. -/
def collapseNonAlnum (l : List Char) : List Char := collapseNonAlnumAux false l

/-- Amended C7 pipeline: lowercase, collapse every run of characters outside
`[a-z0-9]` into a single hyphen, strip all leading and trailing hyphens,
truncate to 100 characters. -/
def specSlugifyAmended (s : String) : String :=
  ⟨((((s.data.map Char.toLower) |> collapseNonAlnum).dropWhile (· = '-')).reverse.dropWhile
      (· = '-')).reverse.take 100⟩

/-! ### Base64 and data-URI handling -/

/-- JavaScript `String.prototype.split(',')` on a character list: the list of
comma-separated segments (an empty input yields one empty segment, exactly
like `"".split(',')` yields `[""]`). -/
def splitComma : List Char → List (List Char)
  | [] => [[]]
  | c :: rest =>
    match splitComma rest with
    | [] => [[]]
    | s :: ss => if c = ',' then [] :: s :: ss else (c :: s) :: ss

/-- Value of a base64 alphabet character (RFC 4648), `none` outside the
alphabet.  Models the host `atob` character table. -/
def b64Val (c : Char) : Option Nat :=
  if 65 ≤ c.toNat && c.toNat ≤ 90 then some (c.toNat - 65)
  else if 97 ≤ c.toNat && c.toNat ≤ 122 then some (c.toNat - 97 + 26)
  else if 48 ≤ c.toNat && c.toNat ≤ 57 then some (c.toNat - 48 + 52)
  else if c = '+' then some 62
  else if c = '/' then some 63
  else none

/-- Reassemble 6-bit groups into bytes; a trailing group of a single sextet is
invalid, groups of two or three sextets yield one or two bytes. -/
def sextetsToBytes : List Nat → Option (List Nat)
  | [] => some []
  | [_] => none
  | [a, b] => some [a * 4 + b / 16]
  | [a, b, c] => some [a * 4 + b / 16, (b % 16) * 16 + c / 4]
  | a :: b :: c :: d :: rest =>
    match sextetsToBytes rest with
    | none => none
    | some tail =>
      some ((a * 4 + b / 16) :: ((b % 16) * 16 + c / 4) :: ((c % 4) * 64 + d) :: tail)

/-- Remove one trailing `'='`. -/
def dropPad1 (l : List Char) : List Char :=
  if l.getLast? = some '=' then l.dropLast else l

/-- Modelled host primitive: WHATWG forgiving-base64 as used by `atob`.
Strips up to two trailing `'='` when the length is a multiple of four,
rejects a leftover length of one and any character outside the alphabet, and
returns the decoded bytes; `none` models the `InvalidCharacterError` the host
throws. -/
def atobChars (l : List Char) : Option (List Nat) :=
  let l1 := if l.length % 4 = 0 then dropPad1 (dropPad1 l) else l
  if l1.length % 4 = 1 then none
  else
    match l1.mapM b64Val with
    | none => none
    | some vals => sextetsToBytes vals

/-- `InlinerClient.base64ToUint8Array` (src/index.ts:305-312): `atob` followed
by per-character `charCodeAt`, which yields exactly the decoded bytes.
`none` models the propagated `InvalidCharacterError`. -/
def base64ToUint8Array (s : String) : Option (List Nat) := atobChars s.data

/-! ### Errors and results -/

/-- JavaScript `Error` as the library throws it (`new Error(message)`): a
single generic type carrying only the message string. -/
structure JsError where
  message : String
deriving DecidableEq

/-- The success value `{data, url, contentPath}` (src/index.ts:89-93), with
`Uint8Array` as a byte list. -/
structure ImageResult where
  data : List Nat
  url : String
  contentPath : String
deriving DecidableEq

/-- Decidable equality of `Except` results, so that concrete runs can be
checked by `decide`. -/
def exceptDecEq {ε α : Type} [DecidableEq ε] [DecidableEq α] : DecidableEq (Except ε α)
  | Except.ok a, Except.ok b =>
    if h : a = b then isTrue (by rw [h]) else isFalse (fun hh => h (Except.ok.inj hh))
  | Except.ok _, Except.error _ => isFalse (fun hh => Except.noConfusion hh)
  | Except.error _, Except.ok _ => isFalse (fun hh => Except.noConfusion hh)
  | Except.error a, Except.error b =>
    if h : a = b then isTrue (by rw [h]) else isFalse (fun hh => h (Except.error.inj hh))

instance {ε α : Type} [DecidableEq ε] [DecidableEq α] : DecidableEq (Except ε α) := exceptDecEq

/-- Message of the poll timeout error (src/index.ts:293). -/
def timedOutMsg (label : String) (maxSeconds : Nat) (imgUrl : String) : String :=
  label ++ " timed out after " ++ toString maxSeconds ++ "s. URL: " ++ imgUrl

/-- Message of the terminal poll failure (src/index.ts:286). -/
def failedMsg (label : String) (status : Nat) (body : String) : String :=
  label ++ " failed (" ++ toString status ++ "): " ++ body

/-- Message format of transport errors (src/index.ts:125,149). -/
def apiErrorMsg (status : Nat) (m : String) : String :=
  "Inliner API error " ++ toString status ++ ": " ++ m

/-- Message of the malformed-source error (src/index.ts:225). -/
def invalidSourceMsg (source : String) : String :=
  "Invalid source URL: " ++ source

/-- Message of the missing-project error (src/index.ts:236). -/
def missingProjectMsg : String :=
  "Project namespace is required when editing local files"

/-- Message of the host DOMException thrown by `atob` on invalid base64. -/
def invalidCharacterMsg : String := "InvalidCharacterError"

/-- Error thrown by `apiFetch`/`apiFormFetch` on a non-2xx response
(src/index.ts:117-125).  `parsedMessage` is the `JSON.parse` oracle: `none`
when the body does not parse as JSON (the code then substitutes
`{message: body}`), `some none` when it parses without a string `message`
field, `some (some m)` when it parses with `message` equal to `m`; the code
then computes `errorData.message || body`. -/
def apiFetchError (status : Nat) (body : String) (parsedMessage : Option (Option String)) :
    JsError :=
  ⟨apiErrorMsg status
    (match parsedMessage with
     | some (some m) => if m = "" then body else m
     | _ => body)⟩

/-! ### The poll loop -/

/-- Oracle for the HTTP traffic of one `pollImage` run: for the i-th status
request (0-based), the response status, the `json.mediaAsset?.data` field of
a 200 body, the `res.text()` body used in failure messages, and the outcome
of the CDN fallback fetch issued on a 200 without inline data. -/
structure PollEnv where
  status : Nat → Nat
  mediaData : Nat → Option String
  bodyText : Nat → String
  cdnOk : Nat → Bool
  cdnBytes : Nat → List Nat

/-- JavaScript truthiness of `json.mediaAsset?.data`: a present, nonempty
string. -/
def jsTruthyStr : Option String → Bool
  | none => false
  | some s => s ≠ ""

/-- Inline data-URI handling of src/index.ts:263-268 (also 186-191):
`const [, base64] = data.split(',')` takes the segment between the first and
second comma (undefined when there is no comma, on which `atob` throws), then
`base64ToUint8Array` decodes it. -/
def decodeInline (d : String) (imgUrl contentPath : String) : Except JsError ImageResult :=
  match (splitComma d.data)[1]? with
  | none => Except.error ⟨invalidCharacterMsg⟩
  | some seg =>
    match atobChars seg with
    | none => Except.error ⟨invalidCharacterMsg⟩
    | some bytes => Except.ok ⟨bytes, imgUrl, contentPath⟩

/-- The `for` loop of `pollImage` (src/index.ts:254-291).  `i` is the attempt
index, `fuel` the remaining attempts out of `maxAttempts`; the second
component of the result counts the status-endpoint requests performed.
Status 200 with truthy inline data decodes and returns; status 200 otherwise
tries the CDN fetch and on failure falls through (the `!== 200 && !== 202`
check does not fire) to the 3-second wait and the next attempt; status 202
waits and retries; any other status throws immediately; exhausted fuel
throws the timeout error (src/index.ts:293). -/
def pollLoop (env : PollEnv) (label imgUrl contentPath : String) (maxSeconds : Nat) :
    Nat → Nat → (Except JsError ImageResult) × Nat
  | _, 0 => (Except.error ⟨timedOutMsg label maxSeconds imgUrl⟩, 0)
  | i, fuel + 1 =>
    if env.status i = 200 then
      if jsTruthyStr (env.mediaData i) then
        (decodeInline ((env.mediaData i).getD "") imgUrl contentPath, 1)
      else if env.cdnOk i then
        (Except.ok ⟨env.cdnBytes i, imgUrl, contentPath⟩, 1)
      else
        ((pollLoop env label imgUrl contentPath maxSeconds (i + 1) fuel).1,
         (pollLoop env label imgUrl contentPath maxSeconds (i + 1) fuel).2 + 1)
    else if env.status i = 202 then
      ((pollLoop env label imgUrl contentPath maxSeconds (i + 1) fuel).1,
       (pollLoop env label imgUrl contentPath maxSeconds (i + 1) fuel).2 + 1)
    else
      (Except.error ⟨failedMsg label (env.status i) (env.bodyText i)⟩, 1)

/-- `InlinerClient.pollImage` (src/index.ts:249-294): the image URL is
`{imageUrl}/{contentPath}`, the attempt budget `Math.ceil(maxSeconds / 3)`
(on naturals, `(maxSeconds + 2) / 3`), and the loop starts at attempt 0.
The second component counts status-endpoint HTTP calls. -/
def pollImage (env : PollEnv) (imageUrl contentPath label : String) (maxSeconds : Nat) :
    (Except JsError ImageResult) × Nat :=
  pollLoop env label (imageUrl ++ "/" ++ contentPath) contentPath maxSeconds 0
    ((maxSeconds + 2) / 3)

/-- Default `maxSeconds` of `pollImage` (src/index.ts:249). -/
def defaultMaxSeconds : Nat := 180

/-! ### Edit routing -/

/-- `path.replace(/^\//, '')`: strip one leading slash (src/index.ts:227). -/
def stripLeadingSlash (s : String) : String :=
  match s.data with
  | '/' :: rest => ⟨rest⟩
  | _ => s

/-- Boolean string-prefix test, modelling `String.prototype.startsWith`. -/
def strStartsWith (s p : String) : Bool := p.data.isPrefixOf s.data

/-- Modelled host primitive: pathname extraction of `new URL(s).pathname` for
http/https URLs per the WHATWG URL standard: after the scheme, the authority
runs to the first `/`, `?` or `#` and must be nonempty (otherwise parsing
throws); the pathname is the part from the first `/` up to `?` or `#`, and
`"/"` when absent. -/
def parsePathnameAfterScheme (rest : List Char) : Option (List Char) :=
  let host := rest.takeWhile (fun c => !(c = '/' || c = '?' || c = '#'))
  if host.isEmpty then none
  else
    match rest.drop host.length with
    | '/' :: after => some ('/' :: after.takeWhile (fun c => !(c = '?' || c = '#')))
    | _ => some ['/']

/-- `new URL(source).pathname` for the http/https sources `editImage`
routes through it; `none` models the thrown TypeError. -/
def urlPathname (s : String) : Option String :=
  if strStartsWith s "http://" then
    (parsePathnameAfterScheme (s.data.drop 7)).map fun l => ⟨l⟩
  else if strStartsWith s "https://" then
    (parsePathnameAfterScheme (s.data.drop 8)).map fun l => ⟨l⟩
  else none

/-- JavaScript truthiness of the numeric `width`/`height` options: present
and nonzero. -/
def jsTruthyNat : Option Nat → Bool
  | none => false
  | some n => n ≠ 0

/-- `width && height ? `_${width}x${height}` : ''` (src/index.ts:217). -/
def dimsSuffix (width height : Option Nat) : String :=
  if jsTruthyNat width && jsTruthyNat height then
    "_" ++ toString (width.getD 0) ++ "x" ++ toString (height.getD 0)
  else ""

/-- Where `editImage` with a string source routes before polling. -/
inductive EditRoute where
  /-- URL chaining: poll `{basePath}/{editSlug}{dims}.{format}` with label
  "Editing" (src/index.ts:231-232). -/
  | pollUrl (contentPath : String)
  /-- Local-file branch: upload first, then poll the chained path
  (src/index.ts:234-245). -/
  | uploadLocal
deriving DecidableEq

/-- Source routing of `editImage` for a string source (src/index.ts:215-246):
only sources starting with `http://` or `https://` are treated as URLs; a
URL-parse failure throws the invalid-source error; any other string falls to
the local-file branch, which throws the missing-project error when `project`
is absent. -/
def editRouteStr (source instruction : String) (project : Option String)
    (format : String) (width height : Option Nat) : Except JsError EditRoute :=
  let editSlug := slugify instruction
  let dims := dimsSuffix width height
  if strStartsWith source "http://" || strStartsWith source "https://" then
    match urlPathname source with
    | none => Except.error ⟨invalidSourceMsg source⟩
    | some urlPath =>
      Except.ok (EditRoute.pollUrl
        (stripLeadingSlash urlPath ++ "/" ++ editSlug ++ dims ++ "." ++ format))
  else
    match project with
    | none => Except.error ⟨missingProjectMsg⟩
    | some _ => Except.ok EditRoute.uploadLocal

/-! ### Smart generation -/

/-- Response of `content/generate` as `generateImage` reads it: the echoed
`prompt` path field and the optional inline `mediaAsset.data`. -/
structure GenResponse where
  prompt : Option String
  mediaData : Option String

/-- Oracle for one smart-mode `generateImage` run: the outcome of the
`url/recommend` call (its `recommendedSlug` on success), the outcome of the
`content/generate` call, and the poll traffic. -/
structure GenEnv where
  recommend : Except JsError String
  generate : Except JsError GenResponse
  poll : PollEnv

/-- Observable outcome of a smart-mode `generateImage` run: the slug put in
the `content/generate` request body, and the result with the number of poll
status calls. -/
structure GenOutcome where
  submittedSlug : String
  result : (Except JsError ImageResult) × Nat

/-- `generateImage` with `smartUrl = true` (src/index.ts:163-195): a failing
recommendation call is caught and replaced by `slugify(prompt)`; the
generation request is then submitted with that slug; the content path comes
from the echoed `prompt` field (one leading slash stripped, falsy values
replaced by `{project}/{slug}.{format}`); inline data returns immediately,
otherwise the path is polled with label "Generating". -/
def generateImageSmart (imageUrl : String) (env : GenEnv)
    (project promptText format : String) : GenOutcome :=
  let recommendedSlug :=
    match env.recommend with
    | Except.ok s => s
    | Except.error _ => slugify promptText
  match env.generate with
  | Except.error e => ⟨recommendedSlug, (Except.error e, 0)⟩
  | Except.ok r =>
    let fallback := project ++ "/" ++ recommendedSlug ++ "." ++ format
    let contentPath :=
      match r.prompt with
      | some p => if stripLeadingSlash p = "" then fallback else stripLeadingSlash p
      | none => fallback
    if jsTruthyStr r.mediaData then
      ⟨recommendedSlug,
       (decodeInline (r.mediaData.getD "") (imageUrl ++ "/" ++ contentPath) contentPath, 0)⟩
    else
      ⟨recommendedSlug, pollImage env.poll imageUrl contentPath "Generating" defaultMaxSeconds⟩

/-! ### Error classification (formalising the amended C9) -/

/-- The five failure categories of the spec taxonomy, plus a bucket for
anything else. -/
inductive ErrCategory where
  | apiError
  | invalidSource
  | missingProject
  | operationFailed
  | operationTimedOut
  | unknownError
deriving DecidableEq

/-- Classify a surfaced failure by its message format alone: this is all the
information `new Error(message)` delivers to callers. -/
def classifyError (m : String) : ErrCategory :=
  if strStartsWith m "Inliner API error " then ErrCategory.apiError
  else if strStartsWith m "Invalid source URL: " then ErrCategory.invalidSource
  else if m = missingProjectMsg then ErrCategory.missingProject
  else if strStartsWith m "Generating failed (" || strStartsWith m "Editing failed (" then
    ErrCategory.operationFailed
  else if strStartsWith m "Generating timed out after "
      || strStartsWith m "Editing timed out after " then
    ErrCategory.operationTimedOut
  else ErrCategory.unknownError

/-! ### Concrete inputs used by witnesses and counterexamples -/

/-- A server that answers 202 to every status request. -/
def env202c : PollEnv := ⟨fun _ => 202, fun _ => none, fun _ => "", fun _ => false, fun _ => []⟩

/-- A server that answers 404 with body "not found" to every status request. -/
def env404c : PollEnv :=
  ⟨fun _ => 404, fun _ => none, fun _ => "not found", fun _ => false, fun _ => []⟩

/-- A server that always answers 200 without inline data while the CDN fetch
keeps failing. -/
def env200c : PollEnv := ⟨fun _ => 200, fun _ => none, fun _ => "", fun _ => false, fun _ => []⟩

/-- A server that answers 202 on the first attempt and 200 with an inline
data-URI on the second. -/
def env3c : PollEnv :=
  ⟨fun i => if i = 0 then 202 else 200,
   fun i => if i = 1 then some "data:image/png;base64,aGk=" else none,
   fun _ => "", fun _ => false, fun _ => []⟩

/-- Input whose slug reaches the 100-character truncation: 99 `'a'`s, a
hyphen, then `'b'`. -/
def c6input : String := ⟨List.replicate 99 'a' ++ ['-', 'b']⟩

end Inliner

namespace Inliner

/-! ### Poll-loop lemmas -/

theorem pollLoop_count_le (env : PollEnv) (label u cp : String) (s : Nat) :
    ∀ fuel i, (pollLoop env label u cp s i fuel).2 ≤ fuel := by
  intro fuel
  induction fuel with
  | zero => intro i; simp [pollLoop]
  | succ n ih =>
    intro i
    simp only [pollLoop]
    split
    · split
      · simp
      · split
        · simp
        · simpa using Nat.add_le_add_right (ih (i + 1)) 1
    · split
      · simpa using Nat.add_le_add_right (ih (i + 1)) 1
      · simp

theorem pollLoop_continues (env : PollEnv) (label u cp : String) (s : Nat)
    (h : ∀ k, env.status k = 202 ∨
      (env.status k = 200 ∧ jsTruthyStr (env.mediaData k) = false ∧ env.cdnOk k = false)) :
    ∀ fuel i, pollLoop env label u cp s i fuel =
      (Except.error ⟨timedOutMsg label s u⟩, fuel) := by
  intro fuel
  induction fuel with
  | zero => intro i; simp [pollLoop]
  | succ n ih =>
    intro i
    rcases h i with h202 | ⟨h200, hm, hc⟩
    · simp [pollLoop, h202, ih]
    · simp [pollLoop, h200, hm, hc, ih]

theorem pollLoop_skip202 (env : PollEnv) (label u cp : String) (s : Nat) :
    ∀ (m i fuel : Nat), (∀ k, k < m → env.status (i + k) = 202) → m ≤ fuel →
      pollLoop env label u cp s i fuel =
        ((pollLoop env label u cp s (i + m) (fuel - m)).1,
         (pollLoop env label u cp s (i + m) (fuel - m)).2 + m) := by
  intro m
  induction m with
  | zero => intro i fuel _ _; simp
  | succ n ih =>
    intro i fuel h hle
    obtain ⟨f, rfl⟩ : ∃ f, fuel = f + 1 := ⟨fuel - 1, by omega⟩
    have h0 : env.status i = 202 := by simpa using h 0 (Nat.succ_pos n)
    have hrest : ∀ k, k < n → env.status (i + 1 + k) = 202 := by
      intro k hk
      have := h (k + 1) (by omega)
      simpa [Nat.add_assoc, Nat.add_comm 1 k] using this
    have hih := ih (i + 1) f hrest (by omega)
    simp only [pollLoop, h0]
    norm_num
    rw [hih]
    have he1 : i + 1 + n = i + (n + 1) := by omega
    have he2 : f - n = f + 1 - (n + 1) := by omega
    rw [he1, he2]
    constructor
    · rfl
    · omega

theorem splitComma_ne_nil : ∀ l : List Char, splitComma l ≠ [] := by
  intro l
  cases l with
  | nil => simp [splitComma]
  | cons c rest =>
    simp only [splitComma]
    split
    · simp
    · split <;> simp

theorem splitComma_append (p b : List Char) (hp : ',' ∉ p) :
    splitComma (p ++ ',' :: b) = p :: splitComma b := by
  induction p with
  | nil =>
    simp only [List.nil_append, splitComma]
    rcases h : splitComma b with _ | ⟨s, ss⟩
    · exact absurd h (splitComma_ne_nil b)
    · simp
  | cons a p ih =>
    have ha : a ≠ ',' := fun h => hp (h ▸ List.mem_cons_self a p)
    have hp' : ',' ∉ p := fun h => hp (List.mem_cons_of_mem a h)
    simp only [List.cons_append, splitComma, List.append_eq]
    rw [ih hp']
    simp [ha]

theorem splitComma_no_comma : ∀ l : List Char, ',' ∉ l → splitComma l = [l] := by
  intro l
  induction l with
  | nil => intro _; rfl
  | cons a p ih =>
    intro h
    have ha : a ≠ ',' := fun hh => h (hh ▸ List.mem_cons_self a p)
    have hp : ',' ∉ p := fun hh => h (List.mem_cons_of_mem a hh)
    simp only [splitComma, ih hp]
    simp [ha]

theorem decodeInline_inline (pre b64 u cp : String) (bytes : List Nat)
    (hpre : ',' ∉ pre.data) (hb : ',' ∉ b64.data)
    (hdec : atobChars b64.data = some bytes) :
    decodeInline (pre ++ "," ++ b64) u cp = Except.ok ⟨bytes, u, cp⟩ := by
  have hd : (pre ++ "," ++ b64).data = pre.data ++ ',' :: b64.data := by
    simp [String.data_append]
  unfold decodeInline
  rw [hd, splitComma_append _ _ hpre, splitComma_no_comma _ hb]
  simp [hdec]

/-- C1: for every contentPath, label and timeout, the poll loop performs at
most `ceil(maxSeconds / 3)` status-endpoint calls; and against a server that
answers 202 on every attempt, with `maxSeconds = 6` it fails with the timeout
error (carrying the label, the timeout in seconds and the image URL
`{imageUrl}/{contentPath}`) after exactly 2 status attempts. -/
theorem C1_poll_budget_and_timeout :
    (∀ (env : PollEnv) (imageUrl contentPath label : String) (maxSeconds : Nat),
        (pollImage env imageUrl contentPath label maxSeconds).2 ≤ (maxSeconds + 2) / 3) ∧
    (∀ (env : PollEnv) (imageUrl contentPath label : String),
        (∀ i, env.status i = 202) →
        pollImage env imageUrl contentPath label 6 =
          (Except.error ⟨timedOutMsg label 6 (imageUrl ++ "/" ++ contentPath)⟩, 2)) := by
  constructor
  · intro env iu cp label s
    exact pollLoop_count_le env label (iu ++ "/" ++ cp) cp s _ 0
  · intro env iu cp label h
    have := pollLoop_continues env label (iu ++ "/" ++ cp) cp 6 (fun k => Or.inl (h k)) 2 0
    simpa [pollImage] using this

theorem C1_witness :
    pollImage env202c "https://img.inliner.ai" "p/x.png" "Generating" 6 =
      (Except.error
        ⟨timedOutMsg "Generating" 6 ("https://img.inliner.ai" ++ "/" ++ "p/x.png")⟩, 2) :=
  C1_poll_budget_and_timeout.2 env202c "https://img.inliner.ai" "p/x.png" "Generating"
    (fun _ => rfl)

/-- C2: for every contentPath and label, a status response other than 200 and
202 makes the poll loop fail immediately with the terminal failure carrying
that status code and the response body, after exactly one status attempt. -/
theorem C2_poll_terminal_failure (env : PollEnv) (imageUrl contentPath label : String)
    (maxSeconds : Nat) (hs : 1 ≤ maxSeconds) (st : Nat)
    (h0 : env.status 0 = st) (h200 : st ≠ 200) (h202 : st ≠ 202) :
    pollImage env imageUrl contentPath label maxSeconds =
      (Except.error ⟨failedMsg label st (env.bodyText 0)⟩, 1) := by
  obtain ⟨f, hf⟩ : ∃ f, (maxSeconds + 2) / 3 = f + 1 :=
    ⟨(maxSeconds + 2) / 3 - 1, by omega⟩
  unfold pollImage
  rw [hf]
  simp [pollLoop, h0, h200, h202]

theorem C2_witness :
    pollImage env404c "i" "p" "Generating" 180 =
      (Except.error ⟨failedMsg "Generating" 404 (env404c.bodyText 0)⟩, 1) :=
  C2_poll_terminal_failure env404c "i" "p" "Generating" 180 (by decide) 404 rfl
    (by decide) (by decide)

/-- C3: with `1 ≤ N ≤ ceil(maxSeconds / 3)`, a server that answers 202 on the
first N-1 attempts and then 200 with an inline data-URI makes the poll loop
succeed on the Nth attempt, the returned bytes being the base64 decoding of
the data-URI segment after its first comma. -/
theorem C3_poll_success_on_nth (env : PollEnv) (imageUrl contentPath label : String)
    (maxSeconds N : Nat) (pre b64 : String) (bytes : List Nat)
    (hN1 : 1 ≤ N) (hNb : N ≤ (maxSeconds + 2) / 3)
    (h202 : ∀ k, k < N - 1 → env.status k = 202)
    (h200 : env.status (N - 1) = 200)
    (hdata : env.mediaData (N - 1) = some (pre ++ "," ++ b64))
    (hpre : ',' ∉ pre.data) (hb : ',' ∉ b64.data)
    (hdec : atobChars b64.data = some bytes) :
    pollImage env imageUrl contentPath label maxSeconds =
      (Except.ok ⟨bytes, imageUrl ++ "/" ++ contentPath, contentPath⟩, N) := by
  have hne : pre ++ "," ++ b64 ≠ "" := by
    intro h
    have := congrArg String.data h
    simp [String.data_append] at this
  unfold pollImage
  rw [pollLoop_skip202 env label (imageUrl ++ "/" ++ contentPath) contentPath maxSeconds
    (N - 1) 0 ((maxSeconds + 2) / 3) (fun k hk => by simpa using h202 k hk) (by omega)]
  obtain ⟨f, hf⟩ : ∃ f, (maxSeconds + 2) / 3 - (N - 1) = f + 1 :=
    ⟨(maxSeconds + 2) / 3 - (N - 1) - 1, by omega⟩
  rw [hf]
  simp only [Nat.zero_add]
  simp [pollLoop, h200, hdata, jsTruthyStr, hne,
    decodeInline_inline pre b64 _ _ bytes hpre hb hdec]
  omega

theorem C3_witness :
    pollImage env3c "img" "p.png" "Generating" 6 =
      (Except.ok ⟨[104, 105], "img" ++ "/" ++ "p.png", "p.png"⟩, 2) :=
  C3_poll_success_on_nth env3c "img" "p.png" "Generating" 6 2
    "data:image/png;base64" "aGk=" [104, 105] (by decide) (by decide)
    (fun k hk => by
      have hk0 : k = 0 := by omega
      subst hk0; rfl)
    rfl rfl (by decide) (by decide) (by decide)

/-- C10: a status attempt answered 200 without inline data whose CDN-fallback
fetch fails is not terminal: the loop retries, each such attempt counts
against the budget, and a server that always answers this way ends in the
timeout error (after the full budget of 60 attempts for the default
180-second timeout), not in an operation-failed error. -/
theorem C10_cdn_failure_not_terminal (env : PollEnv) (imageUrl contentPath label : String)
    (h200 : ∀ i, env.status i = 200) (hmd : ∀ i, env.mediaData i = none)
    (hcdn : ∀ i, env.cdnOk i = false) :
    pollImage env imageUrl contentPath label 180 =
      (Except.error ⟨timedOutMsg label 180 (imageUrl ++ "/" ++ contentPath)⟩, 60) := by
  have := pollLoop_continues env label (imageUrl ++ "/" ++ contentPath) contentPath 180
    (fun k => Or.inr ⟨h200 k, by simp [hmd k, jsTruthyStr], hcdn k⟩) 60 0
  simpa [pollImage] using this

theorem C10_witness :
    pollImage env200c "img" "p.png" "Generating" 180 =
      (Except.error ⟨timedOutMsg "Generating" 180 ("img" ++ "/" ++ "p.png")⟩, 60) :=
  C10_cdn_failure_not_terminal env200c "img" "p.png" "Generating"
    (fun _ => rfl) (fun _ => rfl) (fun _ => rfl)

theorem head_invalidSourceMsg (s : String) :
    (invalidSourceMsg s).data.head? = some 'I' := by
  unfold invalidSourceMsg
  rw [String.data_append]
  rw [show ("Invalid source URL: ").data = 'I' :: "nvalid source URL: ".data from rfl]
  simp

/-- C4: edit-by-URL with source `https://cdn.example/proj/img_800x600.png`,
instruction "make it sunset", no width/height and format png polls exactly
`proj/img_800x600.png/make-it-sunset.png`; in general the polled path is
`{basePath}/{slugified instruction}{dims}.{format}` where the dimension
suffix is nonempty only when both width and height are given. -/
theorem C4_edit_url_contentpath :
    (editRouteStr "https://cdn.example/proj/img_800x600.png" "make it sunset" none "png"
        none none =
      Except.ok (EditRoute.pollUrl "proj/img_800x600.png/make-it-sunset.png")) ∧
    (∀ (source instruction : String) (project : Option String) (format : String)
        (w h : Option Nat) (path : String),
        urlPathname source = some path →
        editRouteStr source instruction project format w h =
          Except.ok (EditRoute.pollUrl
            (stripLeadingSlash path ++ "/" ++ slugify instruction ++ dimsSuffix w h
              ++ "." ++ format)) ∧
        (dimsSuffix w h ≠ "" → w.isSome ∧ h.isSome)) := by
  constructor
  · decide
  · intro source instr pr fmt w h path hp
    have hsw : (strStartsWith source "http://" || strStartsWith source "https://") = true := by
      by_cases h1 : strStartsWith source "http://" = true
      · simp [h1]
      · by_cases h2 : strStartsWith source "https://" = true
        · simp [h2]
        · simp [urlPathname, h1, h2] at hp
    constructor
    · simp [editRouteStr, hsw, hp]
    · intro hd
      by_cases hw : (jsTruthyNat w && jsTruthyNat h) = true
      · simp only [Bool.and_eq_true] at hw
        obtain ⟨hw1, hh1⟩ := hw
        constructor
        · cases w with
          | none => simp [jsTruthyNat] at hw1
          | some n => rfl
        · cases h with
          | none => simp [jsTruthyNat] at hh1
          | some n => rfl
      · exact absurd (by simp [dimsSuffix, hw]) hd

theorem C4_witness :
    urlPathname "https://cdn.example/a/b.png" = some "/a/b.png" ∧
    (editRouteStr "https://cdn.example/a/b.png" "brighten" (some "p") "jpg"
        (some 800) (some 600) =
      Except.ok (EditRoute.pollUrl
        (stripLeadingSlash "/a/b.png" ++ "/" ++ slugify "brighten"
          ++ dimsSuffix (some 800) (some 600) ++ "." ++ "jpg")) ∧
      (dimsSuffix (some 800) (some 600) ≠ "" →
        (some 800 : Option Nat).isSome ∧ (some 600 : Option Nat).isSome)) :=
  ⟨by decide,
   C4_edit_url_contentpath.2 "https://cdn.example/a/b.png" "brighten" (some "p") "jpg"
     (some 800) (some 600) "/a/b.png" (by decide)⟩

/-- C5 counterexample: the string source "not-a-url" is not a well-formed URL,
yet the edit operation does not fail with the invalid-source error: it routes
to the local-file upload branch (succeeding when a project is given, and
failing with the missing-project error otherwise). -/
theorem C5_counterexample :
    editRouteStr "not-a-url" "fix it" (some "proj") "png" none none =
        Except.ok EditRoute.uploadLocal ∧
    editRouteStr "not-a-url" "fix it" none "png" none none =
        Except.error ⟨missingProjectMsg⟩ ∧
    missingProjectMsg ≠ invalidSourceMsg "not-a-url" :=
  ⟨by decide, by decide, by decide⟩

/-- C5 amended: only string sources starting with `http://` or `https://`
take the URL path, and among those a URL-parse failure yields the
invalid-source error; any other string source is routed to the local-file
branch (missing-project error when no project is given, upload otherwise)
and never yields the invalid-source error. -/
theorem C5_amended_invalid_source (source instruction : String) (project : Option String)
    (format : String) (w h : Option Nat) :
    ((strStartsWith source "http://" || strStartsWith source "https://") = true →
      urlPathname source = none →
      editRouteStr source instruction project format w h =
        Except.error ⟨invalidSourceMsg source⟩) ∧
    ((strStartsWith source "http://" || strStartsWith source "https://") = false →
      editRouteStr source instruction project format w h ≠
        Except.error ⟨invalidSourceMsg source⟩ ∧
      editRouteStr source instruction project format w h =
        (match project with
         | none => Except.error ⟨missingProjectMsg⟩
         | some _ => Except.ok EditRoute.uploadLocal)) := by
  constructor
  · intro hsw hp
    simp [editRouteStr, hsw, hp]
  · intro hsw
    have hro : editRouteStr source instruction project format w h =
        (match project with
         | none => Except.error ⟨missingProjectMsg⟩
         | some _ => Except.ok EditRoute.uploadLocal) := by
      simp only [editRouteStr, hsw]
      simp
    refine ⟨?_, hro⟩
    rw [hro]
    cases project with
    | none =>
      intro hc
      have hmsg : missingProjectMsg = (invalidSourceMsg source) := by
        have := Except.error.inj hc
        exact congrArg JsError.message this
      have h1 : missingProjectMsg.data.head? = (invalidSourceMsg source).data.head? := by
        rw [hmsg]
      rw [head_invalidSourceMsg] at h1
      rw [show missingProjectMsg.data.head? = some 'P' from rfl] at h1
      simp at h1
    | some p =>
      intro hc
      exact Except.noConfusion hc

theorem C5_amended_witness :
    editRouteStr "http://" "fix" none "png" none none =
        Except.error ⟨invalidSourceMsg "http://"⟩ ∧
    (editRouteStr "not-a-url" "fix" none "png" none none ≠
        Except.error ⟨invalidSourceMsg "not-a-url"⟩ ∧
     editRouteStr "not-a-url" "fix" none "png" none none =
        Except.error ⟨missingProjectMsg⟩) :=
  ⟨(C5_amended_invalid_source "http://" "fix" none "png" none none).1 (by decide) (by decide),
   (C5_amended_invalid_source "not-a-url" "fix" none "png" none none).2 (by decide)⟩

/-- C8: a failing recommendation call in smart-URL generation is caught and
never surfaced: the workflow submits the generation request with the locally
derived `slugify(prompt)` as the slug, and its outcome does not depend on the
content of the recommendation failure. -/
theorem C8_recommend_failure_fallback (imageUrl : String) (g : Except JsError GenResponse)
    (p : PollEnv) (project promptText format : String) (e e' : JsError) :
    (generateImageSmart imageUrl ⟨Except.error e, g, p⟩ project promptText format).submittedSlug
        = slugify promptText ∧
    generateImageSmart imageUrl ⟨Except.error e, g, p⟩ project promptText format =
      generateImageSmart imageUrl ⟨Except.error e', g, p⟩ project promptText format := by
  constructor
  · cases g with
    | error ge => rfl
    | ok r =>
      simp only [generateImageSmart]
      split <;> rfl
  · cases g <;> rfl

/-! ### Slugify lemmas -/

theorem toLower_fixes_slugChar (c : Char) (h : isSlugChar c = true) : c.toLower = c := by
  have hn : (97 ≤ c.toNat ∧ c.toNat ≤ 122) ∨ (48 ≤ c.toNat ∧ c.toNat ≤ 57) ∨ c.toNat = 45 := by
    simp only [isSlugChar, isAlnumLower, Bool.or_eq_true, Bool.and_eq_true,
      decide_eq_true_eq] at h
    rcases h with (h | h) | h
    · exact Or.inl h
    · exact Or.inr (Or.inl h)
    · subst h; exact Or.inr (Or.inr rfl)
  show Char.toLower c = c
  unfold Char.toLower
  rw [if_neg]
  omega

theorem map_toLower_fixes (l : List Char) (h : ∀ c ∈ l, isSlugChar c = true) :
    l.map Char.toLower = l := by
  induction l with
  | nil => rfl
  | cons a t ih =>
    have ha := toLower_fixes_slugChar a (h a (List.mem_cons_self a t))
    have ht := ih (fun c hc => h c (List.mem_cons_of_mem a hc))
    simp [ha, ht]

theorem collapseBadAux_fixes (l : List Char) (h : ∀ c ∈ l, isSlugChar c = true) :
    ∀ b, collapseBadAux b l = l := by
  induction l with
  | nil => intro b; rfl
  | cons a t ih =>
    intro b
    have ha := h a (List.mem_cons_self a t)
    have ht := ih (fun c hc => h c (List.mem_cons_of_mem a hc))
    simp [collapseBadAux, ha, ht]

theorem collapseBadAux_all_slug (l : List Char) :
    ∀ b, ∀ c ∈ collapseBadAux b l, isSlugChar c = true := by
  induction l with
  | nil => intro b c hc; simp [collapseBadAux] at hc
  | cons a t ih =>
    intro b c hc
    by_cases ha : isSlugChar a = true
    · simp only [collapseBadAux, ha, if_pos] at hc
      rcases List.mem_cons.mp hc with rfl | hm
      · exact ha
      · exact ih false c hm
    · simp only [collapseBadAux, ha] at hc
      cases b with
      | true => simpa using ih true c (by simpa using hc)
      | false =>
        rcases List.mem_cons.mp (by simpa using hc) with rfl | hm
        · rfl
        · exact ih true c hm

theorem collapseDashesAux_all_slug (l : List Char) (h : ∀ c ∈ l, isSlugChar c = true) :
    ∀ b, ∀ c ∈ collapseDashesAux b l, isSlugChar c = true := by
  induction l with
  | nil => intro b c hc; simp [collapseDashesAux] at hc
  | cons a t ih =>
    intro b c hc
    have ha := h a (List.mem_cons_self a t)
    have ht := fun c hc => h c (List.mem_cons_of_mem a hc)
    by_cases hd : a = '-'
    · subst hd
      cases b with
      | true =>
        simp only [collapseDashesAux, if_pos rfl] at hc
        exact ih ht true c hc
      | false =>
        simp only [collapseDashesAux, if_pos rfl] at hc
        rcases List.mem_cons.mp hc with rfl | hm
        · rfl
        · exact ih ht true c hm
    · simp only [collapseDashesAux, hd, if_neg hd] at hc
      rcases List.mem_cons.mp hc with rfl | hm
      · exact ha
      · exact ih ht false c hm

theorem noDD_cons (a : Char) (l : List Char) :
    noDD (a :: l) = true ↔
      (¬(a = '-' ∧ l.head? = some '-')) ∧ noDD l = true := by
  cases l with
  | nil => simp [noDD]
  | cons b t =>
    simp only [noDD, Bool.and_eq_true, Bool.not_eq_true', List.head?_cons]
    constructor
    · rintro ⟨h1, h2⟩
      refine ⟨?_, h2⟩
      rintro ⟨rfl, hb⟩
      have hb' : b = '-' := by simpa using hb
      subst hb'
      simp at h1
    · rintro ⟨h1, h2⟩
      refine ⟨?_, h2⟩
      by_cases hA : a = '-'
      · by_cases hB : b = '-'
        · exact absurd ⟨hA, by simp [hB]⟩ h1
        · simp [hA, hB]
      · simp [hA]

theorem collapseDashesAux_true_head (l : List Char) :
    (collapseDashesAux true l).head? ≠ some '-' := by
  induction l with
  | nil => simp [collapseDashesAux]
  | cons a t ih =>
    by_cases hd : a = '-'
    · subst hd; simpa [collapseDashesAux] using ih
    · simp [collapseDashesAux, hd]

theorem collapseDashesAux_noDD (l : List Char) :
    ∀ b, noDD (collapseDashesAux b l) = true := by
  induction l with
  | nil => intro b; simp [collapseDashesAux, noDD]
  | cons a t ih =>
    intro b
    by_cases hd : a = '-'
    · subst hd
      cases b with
      | true => simpa [collapseDashesAux] using ih true
      | false =>
        have heq : collapseDashesAux false ('-' :: t) = '-' :: collapseDashesAux true t := by
          simp [collapseDashesAux]
        rw [heq, noDD_cons]
        exact ⟨fun h => collapseDashesAux_true_head t h.2, ih true⟩
    · simp only [collapseDashesAux, if_neg hd]
      rw [noDD_cons]
      exact ⟨fun h => hd h.1, ih false⟩

theorem collapseDashesAux_fixes (l : List Char) (h : noDD l = true) :
    collapseDashesAux false l = l ∧
      (l.head? ≠ some '-' → collapseDashesAux true l = l) := by
  induction l with
  | nil => exact ⟨rfl, fun _ => rfl⟩
  | cons a t ih =>
    obtain ⟨h1, h2⟩ := (noDD_cons a t).mp h
    obtain ⟨ihf, iht⟩ := ih h2
    constructor
    · by_cases hd : a = '-'
      · subst hd
        have heq : collapseDashesAux false ('-' :: t) = '-' :: collapseDashesAux true t := by
          simp [collapseDashesAux]
        rw [heq]
        have : t.head? ≠ some '-' := fun hh => h1 ⟨rfl, hh⟩
        rw [iht this]
      · simp [collapseDashesAux, hd, ihf]
    · intro hh
      have hd : a ≠ '-' := by simpa using hh
      simp [collapseDashesAux, hd, ihf]

theorem noDD_tail (a : Char) (l : List Char) (h : noDD (a :: l) = true) : noDD l = true :=
  ((noDD_cons a l).mp h).2

theorem noDD_dropLast (l : List Char) (h : noDD l = true) : noDD l.dropLast = true := by
  induction l with
  | nil => exact h
  | cons a t ih =>
    cases t with
    | nil => simp [noDD]
    | cons b u =>
      rw [List.dropLast_cons₂, noDD_cons]
      obtain ⟨h1, h2⟩ := (noDD_cons a (b :: u)).mp h
      refine ⟨?_, ih h2⟩
      rintro ⟨rfl, hh⟩
      cases u with
      | nil => simp at hh
      | cons v w =>
        rw [List.dropLast_cons₂, List.head?_cons] at hh
        exact h1 ⟨rfl, by simpa using hh⟩

theorem dropLeadDash_head (l : List Char) (h : noDD l = true) :
    (dropLeadDash l).head? ≠ some '-' := by
  cases l with
  | nil => simp [dropLeadDash]
  | cons a t =>
    by_cases hd : a = '-'
    · subst hd
      have : dropLeadDash ('-' :: t) = t := rfl
      rw [this]
      intro hh
      exact ((noDD_cons '-' t).mp h).1 ⟨rfl, hh⟩
    · have : dropLeadDash (a :: t) = a :: t := by
        cases t with
        | nil => simp [dropLeadDash, hd]
        | cons b u => simp [dropLeadDash, hd]
      rw [this]
      simpa using hd

theorem dropLeadDash_noDD (l : List Char) (h : noDD l = true) :
    noDD (dropLeadDash l) = true := by
  cases l with
  | nil => simpa [dropLeadDash] using h
  | cons a t =>
    by_cases hd : a = '-'
    · subst hd; exact noDD_tail '-' t h
    · have : dropLeadDash (a :: t) = a :: t := by
        cases t with
        | nil => simp [dropLeadDash, hd]
        | cons b u => simp [dropLeadDash, hd]
      rw [this]; exact h

theorem dropLeadDash_all (l : List Char) (h : ∀ c ∈ l, isSlugChar c = true) :
    ∀ c ∈ dropLeadDash l, isSlugChar c = true := by
  cases l with
  | nil => simpa [dropLeadDash] using h
  | cons a t =>
    by_cases hd : a = '-'
    · subst hd
      exact fun c hc => h c (List.mem_cons_of_mem '-' hc)
    · have : dropLeadDash (a :: t) = a :: t := by
        cases t with
        | nil => simp [dropLeadDash, hd]
        | cons b u => simp [dropLeadDash, hd]
      rw [this]; exact h

theorem getLast_dropLast_ne (l : List Char) (h : noDD l = true)
    (hl : l.getLast? = some '-') : l.dropLast.getLast? ≠ some '-' := by
  induction l with
  | nil => simp at hl
  | cons a t ih =>
    cases t with
    | nil =>
      simp
    | cons b u =>
      rw [List.getLast?_cons_cons] at hl
      rw [List.dropLast_cons₂]
      obtain ⟨h1, h2⟩ := (noDD_cons a (b :: u)).mp h
      cases u with
      | nil =>
        simp only [List.getLast?_cons, List.getLast?_nil] at hl ⊢
        have hb : b = '-' := by simpa [List.getLast?] using hl
        subst hb
        simp [List.dropLast]
        intro hh
        exact h1 ⟨hh, rfl⟩
      | cons v w =>
        have hrec := ih h2 hl
        have hne : (b :: v :: w).dropLast ≠ [] := by
          rw [List.dropLast_cons₂]
          simp
        have hcast : (a :: (b :: v :: w).dropLast).getLast? =
            (b :: v :: w).dropLast.getLast? := by
          cases hm : (b :: v :: w).dropLast with
          | nil => exact absurd hm hne
          | cons y z => rw [List.getLast?_cons_cons]
        rw [hcast]
        exact hrec

theorem stripTrailDash_all (m : List Char) (h : ∀ c ∈ m, isSlugChar c = true) :
    ∀ c ∈ stripTrailDash m, isSlugChar c = true := by
  unfold stripTrailDash
  split
  · intro c hc
    exact h c (List.dropLast_subset m hc)
  · exact h

theorem stripTrailDash_noDD (m : List Char) (h : noDD m = true) :
    noDD (stripTrailDash m) = true := by
  unfold stripTrailDash
  split
  · exact noDD_dropLast m h
  · exact h

theorem stripTrailDash_head (m : List Char) (h : m.head? ≠ some '-') :
    (stripTrailDash m).head? ≠ some '-' := by
  unfold stripTrailDash
  split
  · cases m with
    | nil => simp
    | cons a t =>
      cases t with
      | nil => simp
      | cons b u =>
        rw [List.dropLast_cons₂]
        simpa using h
  · exact h

theorem stripTrailDash_last (m : List Char) (h : noDD m = true) :
    (stripTrailDash m).getLast? ≠ some '-' := by
  unfold stripTrailDash
  split
  · next hl => exact getLast_dropLast_ne m h hl
  · next hl => exact hl

theorem dropLeadDash_id (m : List Char) (h : m.head? ≠ some '-') :
    dropLeadDash m = m := by
  cases m with
  | nil => rfl
  | cons a t =>
    have ha : a ≠ '-' := by simpa using h
    cases t with
    | nil => simp [dropLeadDash, ha]
    | cons b u => simp [dropLeadDash, ha]

theorem stripEnds_all (m : List Char) (h : ∀ c ∈ m, isSlugChar c = true) :
    ∀ c ∈ stripEnds m, isSlugChar c = true :=
  stripTrailDash_all _ (dropLeadDash_all m h)

theorem stripEnds_noDD (m : List Char) (h : noDD m = true) :
    noDD (stripEnds m) = true :=
  stripTrailDash_noDD _ (dropLeadDash_noDD m h)

theorem stripEnds_head (m : List Char) (h : noDD m = true) :
    (stripEnds m).head? ≠ some '-' :=
  stripTrailDash_head _ (dropLeadDash_head m h)

theorem stripEnds_last (m : List Char) (h : noDD m = true) :
    (stripEnds m).getLast? ≠ some '-' :=
  stripTrailDash_last _ (dropLeadDash_noDD m h)

theorem stripEnds_id (m : List Char) (hh : m.head? ≠ some '-')
    (hl : m.getLast? ≠ some '-') : stripEnds m = m := by
  unfold stripEnds
  rw [dropLeadDash_id m hh]
  unfold stripTrailDash
  rw [if_neg hl]

theorem collapseBadAux_length_le (l : List Char) :
    ∀ b, (collapseBadAux b l).length ≤ l.length := by
  induction l with
  | nil => intro b; simp [collapseBadAux]
  | cons a t ih =>
    intro b
    by_cases ha : isSlugChar a = true
    · simp only [collapseBadAux, if_pos ha, List.length_cons]
      exact Nat.add_le_add_right (ih false) 1
    · cases b with
      | true =>
        have heq : collapseBadAux true (a :: t) = collapseBadAux true t := by
          simp [collapseBadAux, ha]
        rw [heq]
        exact le_trans (ih true) (by simp)
      | false =>
        have heq : collapseBadAux false (a :: t) = '-' :: collapseBadAux true t := by
          simp [collapseBadAux, ha]
        rw [heq]
        simpa using ih true

theorem collapseDashesAux_length_le (l : List Char) :
    ∀ b, (collapseDashesAux b l).length ≤ l.length := by
  induction l with
  | nil => intro b; simp [collapseDashesAux]
  | cons a t ih =>
    intro b
    by_cases ha : a = '-'
    · subst ha
      cases b with
      | true =>
        simp only [collapseDashesAux, if_pos rfl]
        calc (collapseDashesAux true t).length ≤ t.length := ih true
          _ ≤ ('-' :: t).length := by simp
      | false => simpa [collapseDashesAux] using ih true
    · simpa [collapseDashesAux, ha] using ih false

theorem stripEnds_length_le (m : List Char) : (stripEnds m).length ≤ m.length := by
  unfold stripEnds stripTrailDash
  have h1 : (dropLeadDash m).length ≤ m.length := by
    cases m with
    | nil => simp [dropLeadDash]
    | cons a t =>
      cases t with
      | nil =>
        by_cases ha : a = '-'
        · subst ha; simp [dropLeadDash]
        · simp [dropLeadDash, ha]
      | cons b u =>
        by_cases ha : a = '-'
        · subst ha; simp [dropLeadDash]
        · simp [dropLeadDash, ha]
  split
  · have h2 : (dropLeadDash m).dropLast.length ≤ (dropLeadDash m).length := by
      rw [List.length_dropLast]; omega
    exact le_trans h2 h1
  · exact h1

theorem slug_canonical (l : List Char) :
    (∀ c ∈ stripEnds (collapseDashes (collapseBad l)), isSlugChar c = true) ∧
    noDD (stripEnds (collapseDashes (collapseBad l))) = true ∧
    (stripEnds (collapseDashes (collapseBad l))).head? ≠ some '-' ∧
    (stripEnds (collapseDashes (collapseBad l))).getLast? ≠ some '-' := by
  have h1 : ∀ c ∈ collapseBad l, isSlugChar c = true := collapseBadAux_all_slug l false
  have h2 : ∀ c ∈ collapseDashes (collapseBad l), isSlugChar c = true :=
    collapseDashesAux_all_slug (collapseBad l) h1 false
  have h3 : noDD (collapseDashes (collapseBad l)) = true :=
    collapseDashesAux_noDD (collapseBad l) false
  exact ⟨stripEnds_all _ h2, stripEnds_noDD _ h3, stripEnds_head _ h3, stripEnds_last _ h3⟩

theorem slugifyL_fixes (m : List Char)
    (hall : ∀ c ∈ m, isSlugChar c = true) (hnoDD : noDD m = true)
    (hhead : m.head? ≠ some '-') (hlast : m.getLast? ≠ some '-')
    (hlen : m.length ≤ 100) : slugifyL m = m := by
  unfold slugifyL
  rw [map_toLower_fixes m hall]
  show (stripEnds (collapseDashesAux false (collapseBadAux false m))).take 100 = m
  rw [collapseBadAux_fixes m hall false, (collapseDashesAux_fixes m hnoDD).1,
    stripEnds_id m hhead hlast, List.take_of_length_le hlen]

/-- C6 counterexample: at the 101-character input `aa…a-b` (99 `a`s) the slug
reaches the post-strip 100-character truncation, which leaves a trailing
hyphen: `slugify` is neither idempotent there nor does its output match
`^[a-z0-9]+(-[a-z0-9]+)*$` or equal the empty string. -/
theorem C6_counterexample :
    ¬(slugify (slugify c6input) = slugify c6input ∧
      (matchesSlugRegex (slugify c6input).data ∨ slugify c6input = "")) := by
  decide

theorem stripTrailDash_length_le (l : List Char) : (stripTrailDash l).length ≤ l.length := by
  unfold stripTrailDash
  split
  · rw [List.length_dropLast]; omega
  · exact le_refl _

theorem noDD_take : ∀ (l : List Char) (n : Nat), noDD l = true → noDD (l.take n) = true := by
  intro l
  induction l with
  | nil => intro n _; simp [List.take_nil]; rfl
  | cons a t ih =>
    intro n h
    cases n with
    | zero => rfl
    | succ k =>
      rw [List.take_succ_cons, noDD_cons]
      obtain ⟨h1, h2⟩ := (noDD_cons a t).mp h
      refine ⟨?_, ih k h2⟩
      rintro ⟨ha, hh⟩
      apply h1
      refine ⟨ha, ?_⟩
      cases t with
      | nil => simp at hh
      | cons b u =>
        cases k with
        | zero => simp at hh
        | succ j =>
          rw [List.take_succ_cons, List.head?_cons] at hh
          simpa using hh

theorem head?_take (l : List Char) (n : Nat) (hn : 1 ≤ n) : (l.take n).head? = l.head? := by
  cases l with
  | nil => simp
  | cons a t =>
    obtain ⟨k, rfl⟩ : ∃ k, n = k + 1 := ⟨n - 1, by omega⟩
    rw [List.take_succ_cons]
    simp

theorem slugCore_props (L : List Char) :
    (∀ c ∈ slugCore L, isSlugChar c = true) ∧ noDD (slugCore L) = true ∧
    (slugCore L).head? ≠ some '-' ∧ (slugCore L).length ≤ 100 := by
  obtain ⟨hall, hnoDD, hhead, hlast⟩ := slug_canonical L
  refine ⟨?_, ?_, ?_, ?_⟩
  · intro c hc
    exact hall c (List.take_subset 100 _ hc)
  · exact noDD_take _ 100 hnoDD
  · show ((stripEnds (collapseDashes (collapseBad L))).take 100).head? ≠ some '-'
    rw [head?_take _ 100 (by omega)]
    exact hhead
  · show ((stripEnds (collapseDashes (collapseBad L))).take 100).length ≤ 100
    rw [List.length_take]
    exact Nat.min_le_left _ _

theorem slugifyL_semiCanonical (y : List Char)
    (hall : ∀ c ∈ y, isSlugChar c = true) (hnoDD : noDD y = true)
    (hhead : y.head? ≠ some '-') (hlen : y.length ≤ 100) :
    slugifyL y = stripTrailDash y := by
  unfold slugifyL
  rw [map_toLower_fixes y hall]
  show (stripEnds (collapseDashesAux false (collapseBadAux false y))).take 100 = _
  rw [collapseBadAux_fixes y hall false, (collapseDashesAux_fixes y hnoDD).1]
  unfold stripEnds
  rw [dropLeadDash_id y hhead]
  exact List.take_of_length_le (le_trans (stripTrailDash_length_le y) hlen)

/-- C6 amended: `slugify` factors as `slugCore` after lowercasing, and the
slug-shape facts hold for every lowercased text `L` (so for any lowercasing
semantics, including length-changing Unicode case conversion): whenever the
stripped slug is not cut by the final 100-character truncation the output
`slugCore L` is a fixpoint of `slugify` and matches
`^[a-z0-9]+(-[a-z0-9]+)*$` or is empty; unconditionally every output matches
the regex, is empty, or is exactly 100 characters ending in a hyphen cut by
the truncation, and one further application of `slugify` always reaches a
fixpoint. -/
theorem C6_amended_truncation_shape :
    (∀ s : String, slugify s = ⟨slugCore (s.data.map Char.toLower)⟩) ∧
    (∀ L : List Char,
        (stripEnds (collapseDashes (collapseBad L))).length ≤ 100 →
        slugify ⟨slugCore L⟩ = ⟨slugCore L⟩ ∧
        (matchesSlugRegex (slugCore L) ∨ slugCore L = [])) ∧
    (∀ L : List Char,
        matchesSlugRegex (slugCore L) ∨ slugCore L = [] ∨
        ((slugCore L).getLast? = some '-' ∧ (slugCore L).length = 100)) ∧
    (∀ L : List Char, slugify (slugify ⟨slugCore L⟩) = slugify ⟨slugCore L⟩) := by
  refine ⟨?_, ?_, ?_, ?_⟩
  · intro s
    rfl
  · intro L hm
    have hcore : slugCore L = stripEnds (collapseDashes (collapseBad L)) := by
      unfold slugCore
      exact List.take_of_length_le hm
    obtain ⟨hall, hnoDD, hhead, hlast⟩ := slug_canonical L
    constructor
    · show (⟨slugifyL (slugCore L)⟩ : String) = ⟨slugCore L⟩
      rw [hcore, slugifyL_fixes _ hall hnoDD hhead hlast hm]
    · rw [hcore]
      by_cases hnil : stripEnds (collapseDashes (collapseBad L)) = []
      · right; exact hnil
      · left; exact ⟨hnil, hall, hnoDD, hhead, hlast⟩
  · intro L
    by_cases hy : (slugCore L).getLast? = some '-'
    · right; right
      refine ⟨hy, ?_⟩
      by_cases hm : (stripEnds (collapseDashes (collapseBad L))).length ≤ 100
      · exfalso
        have hcore : slugCore L = stripEnds (collapseDashes (collapseBad L)) := by
          unfold slugCore
          exact List.take_of_length_le hm
        obtain ⟨_, _, _, hlast⟩ := slug_canonical L
        rw [hcore] at hy
        exact hlast hy
      · show (slugCore L).length = 100
        unfold slugCore
        rw [List.length_take]
        omega
    · obtain ⟨hall, hnoDD, hhead, hlen⟩ := slugCore_props L
      by_cases hnil : slugCore L = []
      · right; left; exact hnil
      · left; exact ⟨hnil, hall, hnoDD, hhead, hy⟩
  · intro L
    obtain ⟨hall, hnoDD, hhead, hlen⟩ := slugCore_props L
    have h1 : slugify ⟨slugCore L⟩ = ⟨stripTrailDash (slugCore L)⟩ := by
      show (⟨slugifyL (slugCore L)⟩ : String) = _
      rw [slugifyL_semiCanonical _ hall hnoDD hhead hlen]
    rw [h1]
    have hall2 := stripTrailDash_all _ hall
    have hnoDD2 := stripTrailDash_noDD _ hnoDD
    have hhead2 := stripTrailDash_head _ hhead
    have hlast2 := stripTrailDash_last _ hnoDD
    have hlen2 : (stripTrailDash (slugCore L)).length ≤ 100 :=
      le_trans (stripTrailDash_length_le _) hlen
    show (⟨slugifyL (stripTrailDash (slugCore L))⟩ : String) = _
    rw [slugifyL_fixes _ hall2 hnoDD2 hhead2 hlast2 hlen2]

theorem C6_amended_witness :
    ((stripEnds (collapseDashes (collapseBad "make it sunset".data))).length ≤ 100) ∧
    (slugify ⟨slugCore "make it sunset".data⟩ = ⟨slugCore "make it sunset".data⟩ ∧
      (matchesSlugRegex (slugCore "make it sunset".data) ∨
        slugCore "make it sunset".data = [])) :=
  ⟨by decide, C6_amended_truncation_shape.2.1 "make it sunset".data (by decide)⟩

theorem collapse_compose (l : List Char) :
    collapseDashesAux false (collapseBadAux false l) = collapseNonAlnumAux false l ∧
    collapseDashesAux true (collapseBadAux false l) = collapseNonAlnumAux true l ∧
    collapseDashesAux true (collapseBadAux true l) = collapseNonAlnumAux true l := by
  induction l with
  | nil => exact ⟨rfl, rfl, rfl⟩
  | cons c cs ih =>
    obtain ⟨ihA, ihB, ihC⟩ := ih
    by_cases hA : isAlnumLower c = true
    · have hS : isSlugChar c = true := by simp [isSlugChar, hA]
      have hcd : c ≠ '-' := by
        intro hh; subst hh; simp [isAlnumLower] at hA
      refine ⟨?_, ?_, ?_⟩ <;>
        simp [collapseBadAux, collapseNonAlnumAux, collapseDashesAux, hS, hA, hcd, ihA]
    · by_cases hcd : c = '-'
      · subst hcd
        have hS : isSlugChar '-' = true := by simp [isSlugChar]
        refine ⟨?_, ?_, ?_⟩ <;>
          simp [collapseBadAux, collapseNonAlnumAux, collapseDashesAux, hS, hA, ihB]
      · have hS : isSlugChar c = false := by
          simp [isSlugChar, hcd]
          simpa using hA
        refine ⟨?_, ?_, ?_⟩ <;>
          simp [collapseBadAux, collapseNonAlnumAux, collapseDashesAux, hS, hA, hcd, ihC]

theorem dropWhile_eq_dropLeadDash (m : List Char) (h : noDD m = true) :
    m.dropWhile (· = '-') = dropLeadDash m := by
  cases m with
  | nil => rfl
  | cons a t =>
    by_cases ha : a = '-'
    · subst ha
      have ht : t.head? ≠ some '-' := fun hh => ((noDD_cons '-' t).mp h).1 ⟨rfl, hh⟩
      have h2 : t.dropWhile (· = '-') = t := by
        cases t with
        | nil => rfl
        | cons b u =>
          have hb : b ≠ '-' := by simpa using ht
          rw [List.dropWhile_cons, if_neg (by simpa using hb)]
      rw [List.dropWhile_cons, if_pos (by simp), h2]
      rfl
    · rw [List.dropWhile_cons, if_neg (by simpa using ha)]
      rw [dropLeadDash_id (a :: t) (by simpa using ha)]

theorem revDropWhile_eq_stripTrailDash (m : List Char) (h : noDD m = true) :
    (m.reverse.dropWhile (· = '-')).reverse = stripTrailDash m := by
  cases hl : m.getLast? with
  | none =>
    have hm : m = [] := List.getLast?_eq_none_iff.mp hl
    subst hm; rfl
  | some c =>
    by_cases hc : c = '-'
    · subst hc
      have hrev : m.reverse.head? = some '-' := by rw [List.head?_reverse]; exact hl
      obtain ⟨t, ht⟩ : ∃ t, m.reverse = '-' :: t := by
        cases hr : m.reverse with
        | nil => rw [hr] at hrev; simp at hrev
        | cons x u =>
          rw [hr] at hrev
          have hx : x = '-' := by simpa using hrev
          exact ⟨u, by rw [hx]⟩
      have hm : m = t.reverse ++ ['-'] := by
        have := congrArg List.reverse ht
        simpa using this
      have hdl : m.dropLast = t.reverse := by rw [hm, List.dropLast_concat]
      have hhd : t.head? ≠ some '-' := by
        have hgl := getLast_dropLast_ne m h hl
        rw [hdl, List.getLast?_reverse] at hgl
        exact hgl
      have h2 : t.dropWhile (· = '-') = t := by
        cases t with
        | nil => rfl
        | cons b u =>
          have hb : b ≠ '-' := by simpa using hhd
          rw [List.dropWhile_cons, if_neg (by simpa using hb)]
      rw [ht, List.dropWhile_cons, if_pos (by simp), h2]
      unfold stripTrailDash
      rw [if_pos hl, hdl]
    · have hrev : m.reverse.head? = some c := by rw [List.head?_reverse]; exact hl
      have h2 : m.reverse.dropWhile (· = '-') = m.reverse := by
        cases hr : m.reverse with
        | nil => rfl
        | cons x u =>
          rw [hr] at hrev
          have hx : x = c := by simpa using hrev
          subst hx
          rw [List.dropWhile_cons, if_neg (by simpa using hc)]
      rw [h2, List.reverse_reverse]
      unfold stripTrailDash
      rw [if_neg (by rw [hl]; simpa using hc)]

/-- C7 counterexample: the claim's pipeline (collapse only runs outside
`[a-z0-9-]`, strip end hyphens, truncate) maps "a--b" to itself, but the
implementation also collapses the interior hyphen run and yields "a-b". -/
theorem C7_counterexample :
    slugify "a--b" = "a-b" ∧ specSlugifyC7 "a--b" = "a--b" ∧
    slugify "a--b" ≠ specSlugifyC7 "a--b" := by
  decide

/-- C7 amended: the slug deriver lowercases, collapses every run of characters
outside `[a-z0-9]` (hyphens included in the runs, equivalently it additionally
collapses hyphen runs) into a single hyphen, strips leading and trailing
hyphens, and truncates to 100 characters; in particular
`slugify "A Cool Título!!" = "a-cool-t-tulo"`, and the function is total. -/
theorem C7_amended_pipeline :
    (∀ s : String, slugify s = specSlugifyAmended s) ∧
    slugify "A Cool Título!!" = "a-cool-t-tulo" := by
  constructor
  · intro s
    have hco : collapseDashes (collapseBad (s.data.map Char.toLower)) =
        collapseNonAlnum (s.data.map Char.toLower) :=
      (collapse_compose (s.data.map Char.toLower)).1
    have hnd : noDD (collapseNonAlnum (s.data.map Char.toLower)) = true := by
      rw [← hco]
      exact collapseDashesAux_noDD _ false
    have h1 := dropWhile_eq_dropLeadDash _ hnd
    have hnd1 : noDD (dropLeadDash (collapseNonAlnum (s.data.map Char.toLower))) = true :=
      dropLeadDash_noDD _ hnd
    have h2 := revDropWhile_eq_stripTrailDash _ hnd1
    show (⟨slugifyL s.data⟩ : String) = specSlugifyAmended s
    unfold slugifyL specSlugifyAmended
    rw [hco]
    congr 1
    rw [h1, h2]
    rfl
  · decide

/-! ### Error-format classification lemmas -/

theorem isPrefixOf_take (p s : List Char) :
    p.isPrefixOf s = p.isPrefixOf (s.take p.length) := by
  induction p generalizing s with
  | nil => simp [List.isPrefixOf]
  | cons a q ih =>
    cases s with
    | nil => rfl
    | cons b t =>
      simp only [List.isPrefixOf, List.length_cons, List.take_succ_cons]
      rw [ih t]

theorem strStartsWith_data_append (m pre lit : String) (rest : List Char)
    (hm : m.data = lit.data ++ rest) (hlen : pre.data.length ≤ lit.data.length) :
    strStartsWith m pre = pre.data.isPrefixOf (lit.data.take pre.data.length) := by
  unfold strStartsWith
  rw [isPrefixOf_take, hm, List.take_append_of_le_length hlen]

theorem strStartsWith_append (lit : String) (rest : List Char) (m : String)
    (hm : m.data = lit.data ++ rest) : strStartsWith m lit = true := by
  unfold strStartsWith
  rw [hm]
  exact List.isPrefixOf_iff_prefix.mpr (List.prefix_append _ _)

theorem strStartsWith_false_headNe (m pre : String) (a c : Char) (ra rc : List Char)
    (hm : m.data = a :: ra) (hp : pre.data = c :: rc) (h : a ≠ c) :
    strStartsWith m pre = false := by
  unfold strStartsWith
  rw [hm, hp]
  have hb : (c == a) = false := by
    rw [beq_eq_false_iff_ne]
    exact Ne.symm h
  simp [List.isPrefixOf, hb]

theorem ne_of_data_head (m n : String) (a c : Char) (ra rc : List Char)
    (hm : m.data = a :: ra) (hn : n.data = c :: rc) (h : a ≠ c) : m ≠ n := by
  intro he
  rw [he, hn] at hm
  exact h (List.head_eq_of_cons_eq hm.symm)

theorem classify_apiErrorMsg (st : Nat) (msg : String) :
    classifyError (apiErrorMsg st msg) = ErrCategory.apiError := by
  have hd : (apiErrorMsg st msg).data =
      "Inliner API error ".data ++ ((toString st).data ++ (": ".data ++ msg.data)) := by
    unfold apiErrorMsg
    simp [String.data_append, List.append_assoc]
  unfold classifyError
  rw [if_pos (strStartsWith_append "Inliner API error " _ _ hd)]

theorem classify_invalidSourceMsg (s : String) :
    classifyError (invalidSourceMsg s) = ErrCategory.invalidSource := by
  have hd : (invalidSourceMsg s).data = "Invalid source URL: ".data ++ s.data := by
    unfold invalidSourceMsg
    simp [String.data_append]
  have c1 : strStartsWith (invalidSourceMsg s) "Inliner API error " = false := by
    rw [strStartsWith_data_append _ _ "Invalid source URL: " _ hd (by decide)]
    decide
  have c2 : strStartsWith (invalidSourceMsg s) "Invalid source URL: " = true :=
    strStartsWith_append "Invalid source URL: " _ _ hd
  unfold classifyError
  rw [if_neg (by simp [c1]), if_pos (by simp [c2])]

theorem classify_missingProjectMsg :
    classifyError missingProjectMsg = ErrCategory.missingProject := by
  decide

theorem classify_failedMsg_G (st : Nat) (b : String) :
    classifyError (failedMsg "Generating" st b) = ErrCategory.operationFailed := by
  have h0 : ("Generating" : String) ++ " failed (" = "Generating failed (" := rfl
  have hd : (failedMsg "Generating" st b).data =
      "Generating failed (".data ++ ((toString st).data ++ ("): ".data ++ b.data)) := by
    unfold failedMsg
    rw [h0]
    simp [String.data_append, List.append_assoc]
  have hhead : (failedMsg "Generating" st b).data =
      'G' :: ("enerating failed (".data ++ ((toString st).data ++ ("): ".data ++ b.data))) := by
    rw [hd]
    rfl
  have c1 : strStartsWith (failedMsg "Generating" st b) "Inliner API error " = false :=
    strStartsWith_false_headNe _ _ 'G' 'I' _ _ hhead rfl (by decide)
  have c2 : strStartsWith (failedMsg "Generating" st b) "Invalid source URL: " = false :=
    strStartsWith_false_headNe _ _ 'G' 'I' _ _ hhead rfl (by decide)
  have c3 : failedMsg "Generating" st b ≠ missingProjectMsg :=
    ne_of_data_head _ _ 'G' 'P' _ _ hhead rfl (by decide)
  have c4 : strStartsWith (failedMsg "Generating" st b) "Generating failed (" = true :=
    strStartsWith_append "Generating failed (" _ _ hd
  unfold classifyError
  rw [if_neg (by simp [c1]), if_neg (by simp [c2]), if_neg c3, if_pos (by simp [c4])]

theorem classify_failedMsg_E (st : Nat) (b : String) :
    classifyError (failedMsg "Editing" st b) = ErrCategory.operationFailed := by
  have h0 : ("Editing" : String) ++ " failed (" = "Editing failed (" := rfl
  have hd : (failedMsg "Editing" st b).data =
      "Editing failed (".data ++ ((toString st).data ++ ("): ".data ++ b.data)) := by
    unfold failedMsg
    rw [h0]
    simp [String.data_append, List.append_assoc]
  have hhead : (failedMsg "Editing" st b).data =
      'E' :: ("diting failed (".data ++ ((toString st).data ++ ("): ".data ++ b.data))) := by
    rw [hd]
    rfl
  have c1 : strStartsWith (failedMsg "Editing" st b) "Inliner API error " = false :=
    strStartsWith_false_headNe _ _ 'E' 'I' _ _ hhead rfl (by decide)
  have c2 : strStartsWith (failedMsg "Editing" st b) "Invalid source URL: " = false :=
    strStartsWith_false_headNe _ _ 'E' 'I' _ _ hhead rfl (by decide)
  have c3 : failedMsg "Editing" st b ≠ missingProjectMsg :=
    ne_of_data_head _ _ 'E' 'P' _ _ hhead rfl (by decide)
  have c4a : strStartsWith (failedMsg "Editing" st b) "Generating failed (" = false :=
    strStartsWith_false_headNe _ _ 'E' 'G' _ _ hhead rfl (by decide)
  have c4 : strStartsWith (failedMsg "Editing" st b) "Editing failed (" = true :=
    strStartsWith_append "Editing failed (" _ _ hd
  unfold classifyError
  rw [if_neg (by simp [c1]), if_neg (by simp [c2]), if_neg c3, if_pos (by simp [c4])]

theorem classify_timedOutMsg_G (s : Nat) (u : String) :
    classifyError (timedOutMsg "Generating" s u) = ErrCategory.operationTimedOut := by
  have h0 : ("Generating" : String) ++ " timed out after " = "Generating timed out after " :=
    rfl
  have hd : (timedOutMsg "Generating" s u).data =
      "Generating timed out after ".data ++
        ((toString s).data ++ ("s. URL: ".data ++ u.data)) := by
    unfold timedOutMsg
    rw [h0]
    simp [String.data_append, List.append_assoc]
  have hhead : (timedOutMsg "Generating" s u).data =
      'G' :: ("enerating timed out after ".data ++
        ((toString s).data ++ ("s. URL: ".data ++ u.data))) := by
    rw [hd]
    rfl
  have c1 : strStartsWith (timedOutMsg "Generating" s u) "Inliner API error " = false :=
    strStartsWith_false_headNe _ _ 'G' 'I' _ _ hhead rfl (by decide)
  have c2 : strStartsWith (timedOutMsg "Generating" s u) "Invalid source URL: " = false :=
    strStartsWith_false_headNe _ _ 'G' 'I' _ _ hhead rfl (by decide)
  have c3 : timedOutMsg "Generating" s u ≠ missingProjectMsg :=
    ne_of_data_head _ _ 'G' 'P' _ _ hhead rfl (by decide)
  have c4a : strStartsWith (timedOutMsg "Generating" s u) "Generating failed (" = false := by
    rw [strStartsWith_data_append _ _ "Generating timed out after " _ hd (by decide)]
    decide
  have c4b : strStartsWith (timedOutMsg "Generating" s u) "Editing failed (" = false :=
    strStartsWith_false_headNe _ _ 'G' 'E' _ _ hhead rfl (by decide)
  have c5 : strStartsWith (timedOutMsg "Generating" s u) "Generating timed out after " = true :=
    strStartsWith_append "Generating timed out after " _ _ hd
  unfold classifyError
  rw [if_neg (by simp [c1]), if_neg (by simp [c2]), if_neg c3,
    if_neg (by simp [c4a, c4b]), if_pos (by simp [c5])]

theorem classify_timedOutMsg_E (s : Nat) (u : String) :
    classifyError (timedOutMsg "Editing" s u) = ErrCategory.operationTimedOut := by
  have h0 : ("Editing" : String) ++ " timed out after " = "Editing timed out after " := rfl
  have hd : (timedOutMsg "Editing" s u).data =
      "Editing timed out after ".data ++
        ((toString s).data ++ ("s. URL: ".data ++ u.data)) := by
    unfold timedOutMsg
    rw [h0]
    simp [String.data_append, List.append_assoc]
  have hhead : (timedOutMsg "Editing" s u).data =
      'E' :: ("diting timed out after ".data ++
        ((toString s).data ++ ("s. URL: ".data ++ u.data))) := by
    rw [hd]
    rfl
  have c1 : strStartsWith (timedOutMsg "Editing" s u) "Inliner API error " = false :=
    strStartsWith_false_headNe _ _ 'E' 'I' _ _ hhead rfl (by decide)
  have c2 : strStartsWith (timedOutMsg "Editing" s u) "Invalid source URL: " = false :=
    strStartsWith_false_headNe _ _ 'E' 'I' _ _ hhead rfl (by decide)
  have c3 : timedOutMsg "Editing" s u ≠ missingProjectMsg :=
    ne_of_data_head _ _ 'E' 'P' _ _ hhead rfl (by decide)
  have c4a : strStartsWith (timedOutMsg "Editing" s u) "Generating failed (" = false :=
    strStartsWith_false_headNe _ _ 'E' 'G' _ _ hhead rfl (by decide)
  have c4b : strStartsWith (timedOutMsg "Editing" s u) "Editing failed (" = false := by
    rw [strStartsWith_data_append _ _ "Editing timed out after " _ hd (by decide)]
    decide
  have c5a : strStartsWith (timedOutMsg "Editing" s u) "Generating timed out after " = false :=
    strStartsWith_false_headNe _ _ 'E' 'G' _ _ hhead rfl (by decide)
  have c5 : strStartsWith (timedOutMsg "Editing" s u) "Editing timed out after " = true :=
    strStartsWith_append "Editing timed out after " _ _ hd
  unfold classifyError
  rw [if_neg (by simp [c1]), if_neg (by simp [c2]), if_neg c3,
    if_neg (by simp [c4a, c4b]), if_pos (by simp [c5a, c5])]

theorem decodeInline_error (d u cp : String) (e : JsError)
    (h : decodeInline d u cp = Except.error e) : e = ⟨invalidCharacterMsg⟩ := by
  unfold decodeInline at h
  split at h
  · exact (Except.error.inj h).symm
  · split at h
    · exact (Except.error.inj h).symm
    · exact Except.noConfusion h

theorem pollLoop_error_shape (env : PollEnv) (label u cp : String) (s : Nat) :
    ∀ fuel i e, (pollLoop env label u cp s i fuel).1 = Except.error e →
      e = ⟨timedOutMsg label s u⟩ ∨
      (∃ st b, st ≠ 200 ∧ st ≠ 202 ∧ e = ⟨failedMsg label st b⟩) ∨
      e = ⟨invalidCharacterMsg⟩ := by
  intro fuel
  induction fuel with
  | zero =>
    intro i e h
    simp only [pollLoop] at h
    exact Or.inl (Except.error.inj h).symm
  | succ n ih =>
    intro i e h
    simp only [pollLoop] at h
    split at h
    · split at h
      · exact Or.inr (Or.inr (decodeInline_error _ _ _ _ h))
      · split at h
        · exact Except.noConfusion h
        · exact ih (i + 1) e h
    · split at h
      · exact ih (i + 1) e h
      · next h200 h202 =>
        refine Or.inr (Or.inl ⟨env.status i, env.bodyText i, ?_, ?_, ?_⟩)
        · simpa using h200
        · simpa using h202
        · exact (Except.error.inj h).symm

/-- C9 counterexample: the failure surfaced by the poll loop for a first
attempt answered 404 is a value of the single generic error type carrying
only the formatted message string (the model of `new Error(message)` at
src/index.ts:286), not a distinguishable exception type. -/
theorem C9_counterexample :
    (pollImage env404c "i" "p" "Generating" 180).1 =
      Except.error (JsError.mk "Generating failed (404): not found") := by
  decide

/-- C9 amended: every failure is surfaced as the generic `Error` type whose
only payload is a formatted message string; the five taxonomy categories are
nevertheless recoverable from the message format alone: transport errors
carry `Inliner API error {status}: {message-or-body}` (with the message taken
from the JSON body's `message` field when it parses with a truthy value, else
the raw body text), poll failures carry the operation-failed or
operation-timed-out formats (or the host base64 decoder's
`InvalidCharacterError` for a malformed inline payload), and edit routing
carries the invalid-source or missing-project formats. -/
theorem C9_amended_error_formats :
    (∀ (st : Nat) (body : String) (pm : Option (Option String)),
        classifyError (apiFetchError st body pm).message = ErrCategory.apiError) ∧
    (∀ (env : PollEnv) (imageUrl contentPath label : String) (s : Nat) (e : JsError),
        label = "Generating" ∨ label = "Editing" →
        (pollImage env imageUrl contentPath label s).1 = Except.error e →
        classifyError e.message = ErrCategory.operationFailed ∨
        classifyError e.message = ErrCategory.operationTimedOut ∨
        e.message = invalidCharacterMsg) ∧
    (∀ (source instruction : String) (project : Option String) (format : String)
        (w h : Option Nat) (e : JsError),
        editRouteStr source instruction project format w h = Except.error e →
        classifyError e.message = ErrCategory.invalidSource ∨
        classifyError e.message = ErrCategory.missingProject) ∧
    (∀ (st : Nat) (body : String),
        apiFetchError st body none = ⟨apiErrorMsg st body⟩) ∧
    (∀ (st : Nat) (body m : String), m ≠ "" →
        apiFetchError st body (some (some m)) = ⟨apiErrorMsg st m⟩) := by
  refine ⟨?_, ?_, ?_, ?_, ?_⟩
  · intro st body pm
    exact classify_apiErrorMsg st _
  · intro env iu cp label s e hl h
    rcases pollLoop_error_shape env label (iu ++ "/" ++ cp) cp s _ 0 e h with ht | ⟨st, b, _, _, hf⟩ | hi
    · right; left
      rcases hl with rfl | rfl
      · rw [ht]; exact classify_timedOutMsg_G s (iu ++ "/" ++ cp)
      · rw [ht]; exact classify_timedOutMsg_E s (iu ++ "/" ++ cp)
    · left
      rcases hl with rfl | rfl
      · rw [hf]; exact classify_failedMsg_G st b
      · rw [hf]; exact classify_failedMsg_E st b
    · right; right
      rw [hi]
  · intro source instruction project format w h e herr
    unfold editRouteStr at herr
    split at herr
    · split at herr
      · left
        rw [← (Except.error.inj herr)]
        exact classify_invalidSourceMsg source
      · exact Except.noConfusion herr
    · split at herr
      · right
        rw [← (Except.error.inj herr)]
        exact classify_missingProjectMsg
      · exact Except.noConfusion herr
  · intro st body
    rfl
  · intro st body m hm
    show (⟨apiErrorMsg st (if m = "" then body else m)⟩ : JsError) = ⟨apiErrorMsg st m⟩
    rw [if_neg hm]

theorem C9_amended_witness :
    classifyError (apiFetchError 500 "boom" none).message = ErrCategory.apiError ∧
    (classifyError (JsError.mk (failedMsg "Generating" 404 "not found")).message =
        ErrCategory.operationFailed ∨
      classifyError (JsError.mk (failedMsg "Generating" 404 "not found")).message =
        ErrCategory.operationTimedOut ∨
      (JsError.mk (failedMsg "Generating" 404 "not found")).message = invalidCharacterMsg) ∧
    (classifyError (JsError.mk (invalidSourceMsg "http://")).message =
        ErrCategory.invalidSource ∨
      classifyError (JsError.mk (invalidSourceMsg "http://")).message =
        ErrCategory.missingProject) ∧
    apiFetchError 500 "x" (some (some "oops")) = ⟨apiErrorMsg 500 "oops"⟩ :=
  ⟨C9_amended_error_formats.1 500 "boom" none,
   C9_amended_error_formats.2.1 env404c "i" "p" "Generating" 180
     ⟨failedMsg "Generating" 404 "not found"⟩ (Or.inl rfl) (by decide),
   C9_amended_error_formats.2.2.1 "http://" "fix" none "png" none none
     ⟨invalidSourceMsg "http://"⟩ (by decide),
   C9_amended_error_formats.2.2.2.2 500 "x" "oops" (by decide)⟩
